import Mathlib

/-!
Verification of the worker-state reconstruction and threshold-kill engine of
the python-apache-manager repository (module apache_manager/__init__.py).

The development is a shallow embedding of the Python source:

* status-table parsing (parse_status_table, the slots property, the
  generate_slug normalization from the humanfriendly dependency),
* typed worker records (WorkerStatus and the coerce_value policy),
* the killable-worker registry (foreign_workers, killable_workers),
* the threshold-kill engine (kill_workers).

Python dictionaries built from (key, value) pairs are modelled as association
lists where a later binding shadows an earlier one; Python None is modelled
with Option; exceptions are modelled with Except.  Integer comparisons follow
Python 3 semantics: comparing None with an int raises TypeError.
-/

namespace ApacheManager

/-! ## Python value helpers -/

/-- Errors that Python code in the embedded fragment can raise. -/
inductive PyErr where
  | typeError
  | attributeError
  deriving DecidableEq, Repr

/-- Error raised by the slots property when no status table qualifies
(class StatusPageError in apache_manager/exceptions.py). -/
inductive StatusErr where
  | statusPageError
  deriving DecidableEq, Repr

/-- Python 3 comparison a > b where a may be None (modelled by Option).
None compared with an int raises TypeError; this is the Python 3 behaviour
of the comparisons in ApacheManager.kill_workers. -/
def pyGT (a : Option Int) (b : Int) : Except PyErr Bool :=
  match a with
  | none => .error .typeError
  | some v => .ok (decide (b < v))

/-- Lookup in a Python dict built from an association list of (key, value)
pairs: a later binding for the same key shadows an earlier one, so the last
binding wins. -/
def dictGet (m : List (String × String)) (k : String) : Option String :=
  (m.reverse.find? (fun p => p.1 == k)).map (fun p => p.2)

/-- Python dict.get with a default value. -/
def dictGetD (m : List (String × String)) (k : String) (d : String) : String :=
  (dictGet m k).getD d

/-- Python membership test (k in dict) for the association-list dict model. -/
def dictHas (m : List (String × String)) (k : String) : Bool :=
  (m.find? (fun p => p.1 == k)).isSome

/-- Decimal digit accumulator for the model of the Python int() builtin. -/
def parseDigitsAux : List Char → Nat → Option Nat
  | [], acc => some acc
  | c :: cs, acc =>
    if c.isDigit then parseDigitsAux cs (acc * 10 + (c.toNat - 48)) else none

/-- Model of the Python int(str) builtin on the strings that occur on an
Apache status page: surrounding whitespace is stripped, then an optional
sign followed by one or more decimal digits is accepted; anything else
raises ValueError, modelled as none.  (Numeric-literal underscores of
Python 3.6 are not modelled; they cannot occur in status-page cells.) -/
def pyInt (s : String) : Option Int :=
  let cs := ((s.data.dropWhile Char.isWhitespace).reverse.dropWhile
    Char.isWhitespace).reverse
  match cs with
  | '-' :: rest =>
      if rest = [] then none else (parseDigitsAux rest 0).map (fun n => -(n : Int))
  | '+' :: rest =>
      if rest = [] then none else (parseDigitsAux rest 0).map (fun n => (n : Int))
  | rest =>
      if rest = [] then none else (parseDigitsAux rest 0).map (fun n => (n : Int))

/-- Embedding of coerce_value(int, value) from apache_manager/__init__.py:
the conversion is attempted and any exception yields None (modelled none),
exactly as the try/except in coerce_value.  The test suite pins this
behaviour: coerce_value(float, "1/5") is None. -/
def coerce_int (s : String) : Option Int :=
  pyInt s

/-- Accumulator-based splitting on a separator character. -/
def splitAux (sep : Char) : List Char → List Char → List (List Char)
  | [], acc => [acc.reverse]
  | c :: cs, acc =>
    if c == sep then acc.reverse :: splitAux sep cs []
    else splitAux sep cs (c :: acc)

/-- Model of the Python str.split method with a one-character separator, as
used by the acc and srv properties of WorkerStatus: every occurrence of the
separator starts a new piece and empty pieces are kept. -/
def pySplit (s : String) (sep : Char) : List String :=
  (splitAux sep s.data []).map (fun l => ⟨l⟩)

/-! ## Normalization of column headings (humanfriendly.text.generate_slug)

The source normalizes headings with generate_slug from the humanfriendly
dependency: the text is lower-cased, every maximal run of characters outside
a-z0-9 is replaced by the delimiter "-", and leading and trailing delimiters
are stripped.  The dependency additionally raises when a nonempty text slugs
to the empty string; that corner is omitted here (no claim depends on it).
ASCII case folding suffices for the status-page headings. -/

/-- Characters that survive the slug regex [^a-z0-9] after lower-casing. -/
def isAlnumLower (c : Char) : Bool :=
  ('a' ≤ c && c ≤ 'z') || ('0' ≤ c && c ≤ '9')

/-- ASCII lower-casing as performed by str.lower on the heading texts. -/
def lowerChar (c : Char) : Char :=
  if 'A' ≤ c && c ≤ 'Z' then Char.ofNat (c.toNat + 32) else c

/-- Replacement of each maximal run of non-alphanumeric characters by a
single delimiter, the effect of re.sub applied in generate_slug.  The
boolean flag records whether the previous character was part of such a
run. -/
def collapseAux : Bool → List Char → List Char
  | _, [] => []
  | inRun, c :: cs =>
    if isAlnumLower c then c :: collapseAux false cs
    else if inRun then collapseAux true cs
    else '-' :: collapseAux true cs

/-- Removal of leading delimiter characters, one side of str.strip. -/
def stripLead (l : List Char) : List Char :=
  l.dropWhile (fun c => c == '-')

/-- Removal of trailing then leading delimiter characters: str.strip of the
delimiter in generate_slug. -/
def stripBoth (l : List Char) : List Char :=
  stripLead ((stripLead l.reverse).reverse)

/-- Embedding of humanfriendly.text.generate_slug as used by the slots
property and parse_status_table: lower-case, collapse non-alphanumeric runs
to the "-" delimiter, strip the delimiter from both ends. -/
def generate_slug (s : String) : String :=
  ⟨stripBoth (collapseAux false (s.data.map lowerChar))⟩

/-! ## Status table parsing -/

/-- One table of the HTML status page, reduced to the text content that
coerce_tag extracts: the th cell texts in document order and, per tr row,
the td cell texts. -/
structure Table where
  headers : List String
  rows : List (List String)
  deriving DecidableEq, Repr

/-- A parsed row: the association list produced by the dict comprehension
in parse_status_table, pairing the slugged heading of index i with the
cell of index i. -/
abbrev Row := List (String × String)

/-- Embedding of the dict build in parse_status_table: for each cell of
index i the heading of index i is looked up in the headings dict (whose
keys are 0 .. number of headers - 1); a missing index raises KeyError,
which the surrounding try/except turns into dropping the whole row, so the
row maps to none. -/
def zipByIndex (headings : List String) : Nat → List String → Option Row
  | _, [] => some []
  | i, v :: vs =>
    match headings[i]? with
    | none => none
    | some h => (zipByIndex headings (i + 1) vs).map (fun r => (h, v) :: r)

/-- Embedding of parse_status_table from apache_manager/__init__.py: the th
texts are slugged once, then every tr row with a nonempty td list is turned
into a name-to-value dict by position; a row whose dict build raises (more
cells than headings) is silently dropped. -/
def parse_status_table (t : Table) : List Row :=
  let headings := t.headers.map generate_slug
  t.rows.filterMap (fun row =>
    if row.isEmpty then none else zipByIndex headings 0 row)

/-- The STATUS_COLUMNS constant of apache_manager/__init__.py. -/
def STATUS_COLUMNS : List String :=
  ["Srv", "PID", "Acc", "M", "CPU", "SS", "Req", "Conn", "Child", "Slot",
   "Client", "VHost", "Request"]

/-- The required_columns list computed in the slots property. -/
def required_columns : List String :=
  STATUS_COLUMNS.map generate_slug

/-- The validated_rows filter of the slots property: rows that contain every
required (normalized) column. -/
def validatedRows (t : Table) : List Row :=
  (parse_status_table t).filter (fun r => required_columns.all (fun c => dictHas r c))

/-! ## Worker records (class WorkerStatus) -/

/-- Embedding of class WorkerStatus: the raw status fields extracted from
the status page (the required status_fields property). -/
structure WorkerStatus where
  status_fields : Row
  deriving DecidableEq, Repr

/-- Embedding of WorkerStatus.ss: coerce_value(int, fields.get("ss", "0")).
The value is None (here none) when the cell is present but malformed. -/
def WorkerStatus.ss (w : WorkerStatus) : Option Int :=
  coerce_int (dictGetD w.status_fields "ss" "0")

/-- Embedding of WorkerStatus.acc: the "/"-separated parts of
fields.get("acc", "0/0/0"), each coerced independently; a part that fails
coercion becomes None within the tuple. -/
def WorkerStatus.acc (w : WorkerStatus) : List (Option Int) :=
  (pySplit (dictGetD w.status_fields "acc" "0/0/0") '/').map coerce_int

/-- Embedding of WorkerStatus.srv: the "-"-separated parts of
fields.get("srv", "0-0"), each coerced independently. -/
def WorkerStatus.srv (w : WorkerStatus) : List (Option Int) :=
  (pySplit (dictGetD w.status_fields "srv" "0-0") '-').map coerce_int

/-- Embedding of WorkerStatus.pid: coerce_value(int, fields.get("pid")).
With the key absent, int(None) raises inside coerce_value and None results. -/
def WorkerStatus.pid (w : WorkerStatus) : Option Int :=
  (dictGet w.status_fields "pid").bind coerce_int

/-- Embedding of WorkerStatus.req: coerce_value(int, fields.get("req")). -/
def WorkerStatus.req (w : WorkerStatus) : Option Int :=
  (dictGet w.status_fields "req").bind coerce_int

/-- Embedding of WorkerStatus.m: the raw mode string, None when absent. -/
def WorkerStatus.m (w : WorkerStatus) : Option String :=
  dictGet w.status_fields "m"

/-- The IDLE_MODES constant of apache_manager/__init__.py. -/
def IDLE_MODES : List String :=
  ["_", "I", "."]

/-- Embedding of WorkerStatus.is_idle: the Python expression
self.m in IDLE_MODES, which is False when m is None. -/
def WorkerStatus.is_idle (w : WorkerStatus) : Bool :=
  match w.m with
  | some s => IDLE_MODES.contains s
  | none => false

/-- Embedding of WorkerStatus.is_active: not self.is_idle. -/
def WorkerStatus.is_active (w : WorkerStatus) : Bool :=
  !w.is_idle

/-- Embedding of the slots property loop of ApacheManager: scan the tables
of the status document in order; the first table with a nonempty list of
validated rows yields the WorkerStatus records; if none qualifies the
StatusPageError is raised. -/
def slots : List Table → Except StatusErr (List WorkerStatus)
  | [] => .error .statusPageError
  | t :: ts =>
    if (validatedRows t).isEmpty then slots ts
    else .ok ((validatedRows t).map WorkerStatus.mk)

/-- Embedding of the workers property: the slots with the empty-slot records
(mode equal to ".") filtered out.  Python evaluates None != "." as True, so
records without a mode are kept. -/
def workers (slotsList : List WorkerStatus) : List WorkerStatus :=
  slotsList.filter (fun ws => ws.m != some ".")

/-- Spec-style reformulation of parse_status_table, following the wording of
the amended claim C7: every nonempty row with at most as many cells as
headings is zipped positionally with the slugged headings (unused headings
are simply absent), and a row with more cells than headings is dropped. -/
def parseTableSpec (t : Table) : List Row :=
  let hs := t.headers.map generate_slug
  t.rows.filterMap (fun row =>
    if row = [] then none
    else if row.length ≤ hs.length then some (hs.zip row) else none)

/-- A table whose single heading does not cover the required columns. -/
def tBad : Table :=
  ⟨["Foo"], [["x"]]⟩

/-- A qualifying table: the thirteen expected headings and one full row. -/
def tGood : Table :=
  ⟨STATUS_COLUMNS,
   [["0-0", "1234", "0/1/2", "W", "0.5", "12", "3", "0.0", "0.0", "0.1",
     "127.0.0.1", "example.com:80", "GET / HTTP/1.1"]]⟩

/-- The run flag left behind after collapseAux has processed a chunk. -/
def flagAfter (b : Bool) (l : List Char) : Bool :=
  l.foldl (fun _ c => !isAlnumLower c) b

/-! ## Killable workers, the registry and the kill engine

The kill pass of ApacheManager.kill_workers accesses each worker only
through the KillableWorker capability: pid, is_active, memory_usage, the
optional ss attribute and the optional process handle.  A registry entry is
therefore embedded as that capability record.  For a native worker
(class WorkerStatus) is_active is derived from the mode and the ss
attribute exists but may hold None after a failed coercion; for a foreign
worker (class NonNativeWorker) is_active is always True and no ss
attribute exists, so getattr with default 0 yields 0.  The process handle
is None when the OS process disappeared before it was resolved, in which
case memory_usage (process.rss if process else None) is None as well, so
the handle doubles as the memory value. -/

/-- The two kinds of killable workers: a native status-page record carrying
its mode string and its coerced ss value, or a foreign process found by
scanning the process tree. -/
inductive WKind where
  | native : Option String → Option Int → WKind
  | foreign : WKind
  deriving DecidableEq, Repr

/-- A registry entry as seen by kill_workers: the pid, the worker kind and
the resolved process (some rss, or none when the process is gone). -/
structure KWorker where
  pid : Int
  kind : WKind
  process : Option Int
  deriving DecidableEq, Repr

/-- Classification of a registry entry as idle: WorkerStatus.is_idle for a
native record (m in IDLE_MODES, False for an absent mode) and False for a
foreign worker. -/
def isIdleW (w : KWorker) : Bool :=
  match w.kind with
  | .native m _ =>
    match m with
    | some s => IDLE_MODES.contains s
    | none => false
  | .foreign => false

/-- Classification as active: not idle for native records, always True for
foreign workers (NonNativeWorker.is_active). -/
def isActiveW (w : KWorker) : Bool :=
  !isIdleW w

/-- Recognizer for foreign registry entries. -/
def isForeignW (w : KWorker) : Bool :=
  match w.kind with
  | .foreign => true
  | .native _ _ => false

/-- Embedding of KillableWorker.memory_usage: process.rss if the process is
still there, None otherwise. -/
def memory_usage (w : KWorker) : Option Int :=
  w.process

/-- Embedding of getattr(worker, "ss", 0) in kill_workers: a native record
exposes its ss value (possibly None), a foreign worker has no ss attribute
so the default 0 is produced. -/
def getattrSS (w : KWorker) : Option Int :=
  match w.kind with
  | .native _ ss => ss
  | .foreign => some 0

/-- A process found by the process-tree scan (find_apache_workers), the raw
material of NonNativeWorker: the pid and the resident set size of the live
process handle. -/
structure ForeignProc where
  pid : Int
  rss : Int
  deriving DecidableEq, Repr

/-- Wrapping of a scanned process as NonNativeWorker(process=process). -/
def foreignToKW (p : ForeignProc) : KWorker :=
  ⟨p.pid, .foreign, some p.rss⟩

/-- Embedding of the foreign_workers property: every scanned process whose
pid is not among the native worker pids, wrapped as a foreign worker, in
scan order. -/
def foreign_workers (workersList : List KWorker) (procs : List ForeignProc) :
    List KWorker :=
  (procs.filter (fun p => !(workersList.map KWorker.pid).contains p.pid)).map
    foreignToKW

/-- The sort key of killable_workers: ascending pid. -/
def kwLe (a b : KWorker) : Prop :=
  a.pid ≤ b.pid

instance : DecidableRel kwLe :=
  fun a b => inferInstanceAs (Decidable (a.pid ≤ b.pid))

instance : IsTotal KWorker kwLe :=
  ⟨fun a b => Int.le_total a.pid b.pid⟩

instance : IsTrans KWorker kwLe :=
  ⟨fun _ _ _ hab hbc => Int.le_trans hab hbc⟩

/-- Embedding of the killable_workers property: the native workers extended
with the foreign workers, sorted ascending by pid.  Python uses a stable
sort keyed on pid, which insertion sort on the pid order reproduces. -/
def killable_workers (workersList : List KWorker) (procs : List ForeignProc) :
    List KWorker :=
  List.insertionSort kwLe (workersList ++ foreign_workers workersList procs)

/-- The mutable state threaded through the kill pass: the killed set (kept
in insertion order, which determines the returned list), the pids that were
actually sent a termination signal via process.kill(), and the two manager
counters num_killed_active and num_killed_idle. -/
structure KillState where
  killed : List Int
  signals : List Int
  numKilledActive : Int
  numKilledIdle : Int
  deriving DecidableEq, Repr

/-- The memory half of the per-worker decision in kill_workers: the
threshold is max_memory_active for an active worker and max_memory_idle for
an idle one; a zero threshold short-circuits to False, a nonzero one
compares the resolved memory usage, which raises TypeError (Python 3) when
the memory is None. -/
def memCheck (w : KWorker) (mmA mmI : Int) : Except PyErr Bool :=
  let thr := if isActiveW w then mmA else mmI
  if thr = 0 then .ok false else pyGT (memory_usage w) thr

/-- The full per-worker kill decision of kill_workers: the memory check,
and otherwise the duration check, which fires only for a nonzero timeout
and an active worker and compares getattr(worker, "ss", 0) with the
timeout. -/
def killDecision (w : KWorker) (mmA mmI tmo : Int) : Except PyErr Bool :=
  match memCheck w mmA mmI with
  | .error e => .error e
  | .ok true => .ok true
  | .ok false =>
    if tmo = 0 then .ok false
    else if !isActiveW w then .ok false
    else pyGT (getattrSS w) tmo

/-- The bookkeeping performed once a worker is marked: the pid joins the
killed set and exactly one of the two counters is incremented, according to
the activity classification at decision time. -/
def recordKill (w : KWorker) (st : KillState) : KillState :=
  { st with
    killed := st.killed ++ [w.pid],
    numKilledActive :=
      if isActiveW w then st.numKilledActive + 1 else st.numKilledActive,
    numKilledIdle :=
      if isActiveW w then st.numKilledIdle else st.numKilledIdle + 1 }

/-- Embedding of the loop of kill_workers: workers already in the killed
set are skipped; a marked worker is killed via worker.process.kill() unless
dry_run, which raises AttributeError when the process handle is None; the
pid is then recorded and a counter incremented. -/
def killLoop (mmA mmI tmo : Int) (dryRun : Bool) :
    List KWorker → KillState → Except PyErr KillState
  | [], st => .ok st
  | w :: ws, st =>
    if w.pid ∈ st.killed then killLoop mmA mmI tmo dryRun ws st
    else
      match killDecision w mmA mmI tmo with
      | .error e => .error e
      | .ok false => killLoop mmA mmI tmo dryRun ws st
      | .ok true =>
        if dryRun then killLoop mmA mmI tmo dryRun ws (recordKill w st)
        else
          match w.process with
          | none => .error .attributeError
          | some _ =>
            killLoop mmA mmI tmo dryRun ws
              (recordKill w { st with signals := st.signals ++ [w.pid] })

/-- Embedding of ApacheManager.kill_workers: the registry is walked with an
empty killed set, no signals issued yet, and the pre-existing counter
values of the manager. -/
def kill_workers (registry : List KWorker) (mmA mmI tmo : Int) (dryRun : Bool)
    (a0 i0 : Int) : Except PyErr KillState :=
  killLoop mmA mmI tmo dryRun registry ⟨[], [], a0, i0⟩

/-! ## Parsing-layer lemmas and claims -/

theorem zipByIndex_eq (hs : List String) :
    ∀ (row : List String) (i : Nat),
      zipByIndex hs i row =
        if row = [] ∨ i + row.length ≤ hs.length then
          some ((hs.drop i).zip row)
        else none
  | [], i => by simp [zipByIndex]
  | v :: vs, i => by
    rw [zipByIndex]
    cases h : hs[i]? with
    | none =>
      have hlen : hs.length ≤ i := by
        simpa using (List.getElem?_eq_none_iff).mp h
      have hle : ¬(i + (vs.length + 1) ≤ hs.length) := by omega
      simp [hle]
    | some hd =>
      obtain ⟨hi, hget⟩ := List.getElem?_eq_some_iff.mp h
      have hdrop : hs.drop i = hd :: hs.drop (i + 1) := by
        rw [List.drop_eq_getElem_cons hi, hget]
      rw [zipByIndex_eq hs vs (i + 1)]
      by_cases hvs : vs = []
      · subst hvs
        have hle : i + (0 + 1) ≤ hs.length := by omega
        simp only [List.length_nil] at hle
        simp [hdrop]
        omega
      · by_cases hle : i + 1 + vs.length ≤ hs.length
        · have hle2 : i + (vs.length + 1) ≤ hs.length := by omega
          simp [hvs, hle, hle2, hdrop]
        · have hle2 : ¬(i + (vs.length + 1) ≤ hs.length) := by omega
          simp [hvs, hle, hle2]

/-- Claim C7 (amended): parse_status_table binds the i-th heading to the
i-th cell of each nonempty row; a row with fewer cells than headings is
kept with the surplus headings absent, while a row with more cells than
headings is dropped entirely (its dict build raises KeyError, silently
caught).  Stated as equality with the spec-style reformulation. -/
theorem parse_status_table_eq_spec (t : Table) :
    parse_status_table t = parseTableSpec t := by
  unfold parse_status_table parseTableSpec
  apply List.filterMap_congr
  intro row _
  rcases Decidable.em (row = []) with hrow | hrow
  · subst hrow; simp
  · have hne : row.isEmpty = false := by
      simpa [List.isEmpty_iff] using hrow
    rw [hne]
    simp only [Bool.false_eq_true, if_false, hrow, if_neg, if_false]
    rw [zipByIndex_eq]
    simp [hrow]

/-- Claim C7 counterexample: a row with two cells under a single heading is
dropped by parse_status_table, not kept with the excess cell ignored as the
claim states (the claim would keep the row as the mapping a to x). -/
theorem parse_status_table_drops_excess_row :
    parse_status_table ⟨["A"], [["x", "y"]]⟩ = [] ∧
    parse_status_table ⟨["A"], [["x", "y"]]⟩ ≠ [[("a", "x")]] := by
  constructor <;> decide

/-- Claim C6: if some table of the document has a nonempty list of rows
surviving the required-column filter, the slots property returns the worker
records of the first such table in document order; otherwise it raises
StatusPageError and returns nothing partial. -/
theorem slots_first_qualifying_table (pre post : List Table) (t : Table) :
    ((∀ u ∈ pre, validatedRows u = []) → validatedRows t ≠ [] →
      slots (pre ++ t :: post) = .ok ((validatedRows t).map WorkerStatus.mk))
  ∧ (∀ doc : List Table, (∀ u ∈ doc, validatedRows u = []) →
      slots doc = .error .statusPageError) := by
  constructor
  · induction pre with
    | nil =>
      intro _ hne
      have hempty : (validatedRows t).isEmpty = false := by
        simpa [List.isEmpty_iff] using hne
      simp [slots, hempty]
    | cons u pre ih =>
      intro hpre hne
      have hu : validatedRows u = [] := hpre u (List.mem_cons_self u _)
      have hempty : (validatedRows u).isEmpty = true := by simp [hu]
      simpa [slots, hempty] using
        ih (fun x hx => hpre x (List.mem_cons_of_mem u hx)) hne
  · intro doc
    induction doc with
    | nil => intro _; rfl
    | cons u doc ih =>
      intro hall
      have hu : validatedRows u = [] := hall u (List.mem_cons_self u _)
      have hempty : (validatedRows u).isEmpty = true := by simp [hu]
      simpa [slots, hempty] using
        ih (fun x hx => hall x (List.mem_cons_of_mem u hx))

/-- Claim C6 witness: with a non-qualifying table first, slots returns the
records of the qualifying second table, and on a document with only the
non-qualifying table it raises StatusPageError. -/
theorem slots_first_qualifying_table_witness :
    slots [tBad, tGood] = .ok ((validatedRows tGood).map WorkerStatus.mk) ∧
    slots [tBad] = .error .statusPageError := by
  refine ⟨(slots_first_qualifying_table [tBad] [] tGood).1 ?_ ?_,
    (slots_first_qualifying_table [] [] tBad).2 [tBad] ?_⟩
  · intro u hu
    have : u = tBad := by simpa using hu
    subst this
    decide
  · decide
  · intro u hu
    have : u = tBad := by simpa using hu
    subst this
    decide

/-- Claim C9 counterexample: the normalization applied to headings is
generate_slug, which does not strip interior non-alphanumerics but collapses
them to the "-" delimiter, so the heading " CPU Load " normalizes to
"cpu-load" and does not match the token "cpuload" claimed by the spec. -/
theorem generate_slug_interior_counterexample :
    generate_slug " CPU Load " = "cpu-load" ∧
    generate_slug " CPU Load " ≠ "cpuload" := by
  constructor <;> decide

theorem stripLead_cons_delim (l : List Char) :
    stripLead ('-' :: l) = stripLead l := by
  simp [stripLead, List.dropWhile]

theorem stripLead_append_delim (l : List Char) :
    stripLead (l ++ ['-']) =
      if stripLead l = [] then [] else stripLead l ++ ['-'] := by
  induction l with
  | nil => simp [stripLead, List.dropWhile]
  | cons c cs ih =>
    rcases Decidable.em (c = '-') with hc | hc
    · subst hc
      simpa [stripLead_cons_delim] using ih
    · have hb : (c == '-') = false := by simpa using hc
      simp [stripLead, List.dropWhile, hb]

theorem stripBoth_append_delim (l : List Char) :
    stripBoth (l ++ ['-']) = stripBoth l := by
  unfold stripBoth
  rw [List.reverse_append]
  simp [stripLead_cons_delim]

theorem stripBoth_cons_delim (l : List Char) :
    stripBoth ('-' :: l) = stripBoth l := by
  unfold stripBoth
  rw [List.reverse_cons, stripLead_append_delim]
  by_cases h : stripLead l.reverse = []
  · rw [if_pos h, h]
  · rw [if_neg h, List.reverse_append]
    simp only [List.reverse_singleton, List.singleton_append]
    rw [stripLead_cons_delim]

theorem stripBoth_collapseAux_flag (l : List Char) :
    stripBoth (collapseAux true l) = stripBoth (collapseAux false l) := by
  cases l with
  | nil => rfl
  | cons c cs =>
    rcases h : isAlnumLower c with _ | _
    · simp [collapseAux, h, stripBoth_cons_delim]
    · simp [collapseAux, h]

theorem collapseAux_append (Y : List Char) :
    ∀ (X : List Char) (b : Bool),
      collapseAux b (X ++ Y) = collapseAux b X ++ collapseAux (flagAfter b X) Y
  | [], b => by cases b <;> simp [collapseAux, flagAfter]
  | c :: X, b => by
    rcases h : isAlnumLower c with _ | _
    · rcases b with _ | _
      · simp only [List.cons_append, collapseAux, h, Bool.false_eq_true, if_false,
          List.append_eq]
        rw [collapseAux_append Y X true]
        simp [flagAfter, h]
      · simp only [List.cons_append, collapseAux, h, Bool.false_eq_true, if_false,
          if_true, List.append_eq]
        rw [collapseAux_append Y X true]
        simp [flagAfter, h]
    · simp only [List.cons_append, collapseAux, h, if_true, List.append_eq]
      rw [collapseAux_append Y X false]
      simp [flagAfter, h]

/-- Claim C9 (amended): the heading normalization lower-cases and collapses
runs of non-alphanumeric characters to a "-" delimiter, stripping the
delimiter from both ends; hence extra leading or trailing spacing or
punctuation never changes the normalized heading (while interior spacing
or punctuation yields a delimiter and does change it). -/
theorem generate_slug_outer_padding (s : String) (c : Char)
    (h : isAlnumLower (lowerChar c) = false) :
    generate_slug ⟨c :: s.data⟩ = generate_slug s ∧
    generate_slug ⟨s.data ++ [c]⟩ = generate_slug s := by
  constructor
  · show String.mk (stripBoth (collapseAux false ((c :: s.data).map lowerChar))) = _
    simp only [List.map_cons]
    rw [collapseAux]
    simp only [h, Bool.false_eq_true, if_false]
    rw [stripBoth_cons_delim, stripBoth_collapseAux_flag]
    rfl
  · show String.mk (stripBoth (collapseAux false ((s.data ++ [c]).map lowerChar))) = _
    rw [List.map_append, List.map_singleton, collapseAux_append]
    rcases hf : flagAfter false (s.data.map lowerChar) with _ | _
    · rw [show collapseAux false [lowerChar c] = ['-'] by simp [collapseAux, h],
        stripBoth_append_delim]
      rfl
    · rw [show collapseAux true [lowerChar c] = [] by simp [collapseAux, h],
        List.append_nil]
      rfl

/-- Claim C9 witness: a space is a non-alphanumeric character, so the
heading "CPU" padded with a space on either side keeps its slug. -/
theorem generate_slug_outer_padding_witness :
    generate_slug ⟨' ' :: "CPU".data⟩ = generate_slug "CPU" ∧
    generate_slug ⟨"CPU".data ++ [' ']⟩ = generate_slug "CPU" :=
  generate_slug_outer_padding "CPU" ' ' (by decide)

/-- Claim C3 (amended): construction of a worker record never raises; the
scalar fields fall back to the raw default only when the key is absent and
store None (not the typed default) when the present cell fails conversion,
and the tuple fields coerce each delimited part independently, keeping the
arity of the split and storing None for the failing parts. -/
theorem worker_fields_coercion (fields : Row) :
    (dictGet fields "ss" = none → WorkerStatus.ss ⟨fields⟩ = some 0)
  ∧ (∀ v, dictGet fields "ss" = some v → WorkerStatus.ss ⟨fields⟩ = coerce_int v)
  ∧ (dictGet fields "acc" = none →
      WorkerStatus.acc ⟨fields⟩ = [some 0, some 0, some 0])
  ∧ (∀ v, dictGet fields "acc" = some v →
      WorkerStatus.acc ⟨fields⟩ = (pySplit v '/').map coerce_int ∧
      (WorkerStatus.acc ⟨fields⟩).length = (pySplit v '/').length)
  ∧ (∀ v, dictGet fields "srv" = some v →
      WorkerStatus.srv ⟨fields⟩ = (pySplit v '-').map coerce_int) := by
  refine ⟨fun h => ?_, fun v h => ?_, fun h => ?_, fun v h => ?_, fun v h => ?_⟩
  · simp [WorkerStatus.ss, dictGetD, h]; decide
  · simp [WorkerStatus.ss, dictGetD, h]
  · simp [WorkerStatus.acc, dictGetD, h]; decide
  · refine ⟨by simp [WorkerStatus.acc, dictGetD, h], ?_⟩
    simp [WorkerStatus.acc, dictGetD, h]
  · simp [WorkerStatus.srv, dictGetD, h]

/-- Claim C3 counterexample: a present but malformed ss cell stores None,
not the declared default 0, and a malformed part of the acc triple stores
None inside a three-element tuple, not an empty tuple. -/
theorem worker_fields_coercion_counterexample :
    WorkerStatus.ss ⟨[("ss", "abc")]⟩ = none ∧
    WorkerStatus.ss ⟨[("ss", "abc")]⟩ ≠ some 0 ∧
    WorkerStatus.acc ⟨[("acc", "1/x/3")]⟩ = [some 1, none, some 3] ∧
    WorkerStatus.acc ⟨[("acc", "1/x/3")]⟩ ≠ [] := by
  refine ⟨by decide, by decide, by decide, by decide⟩

/-- Claim C3 witness: with the ss cell present as the digit 7 the value is
the coercion of that cell, and with the acc key absent the default triple
results. -/
theorem worker_fields_coercion_witness :
    WorkerStatus.ss ⟨[("ss", "7")]⟩ = coerce_int "7" ∧
    WorkerStatus.acc ⟨[("ss", "7")]⟩ = [some 0, some 0, some 0] :=
  ⟨(worker_fields_coercion [("ss", "7")]).2.1 "7" (by decide),
   (worker_fields_coercion [("ss", "7")]).2.2.1 (by decide)⟩

/-- Claim C10: a parsed worker record whose mode field is absent (m is None)
is classified active, not idle, and is kept by the workers view, because the
idle test only checks membership of m in the idle-mode set and the workers
view excludes only records whose mode equals ".". -/
theorem absent_mode_is_active (w : WorkerStatus) (h : w.m = none) :
    w.is_idle = false ∧ w.is_active = true ∧
    ∀ slotsList : List WorkerStatus, w ∈ slotsList → w ∈ workers slotsList := by
  refine ⟨?_, ?_, ?_⟩
  · simp [WorkerStatus.is_idle, h]
  · simp [WorkerStatus.is_active, WorkerStatus.is_idle, h]
  · intro slotsList hw
    apply List.mem_filter.mpr
    refine ⟨hw, ?_⟩
    simp [h]

/-- Claim C10 witness: the record with no fields at all has m equal to None,
is classified active and appears in the workers view of any slot list that
contains it. -/
theorem absent_mode_is_active_witness :
    WorkerStatus.is_idle ⟨[]⟩ = false ∧
    WorkerStatus.is_active ⟨[]⟩ = true ∧
    WorkerStatus.mk [] ∈ workers [WorkerStatus.mk []] :=
  ⟨(absent_mode_is_active ⟨[]⟩ rfl).1,
   (absent_mode_is_active ⟨[]⟩ rfl).2.1,
   (absent_mode_is_active ⟨[]⟩ rfl).2.2 [WorkerStatus.mk []] (by
     exact List.mem_singleton.mpr rfl)⟩

/-! ## Kill-engine lemmas and claims -/

theorem killLoop_invariant (mmA mmI tmo : Int) (dryRun : Bool) :
    ∀ (ws : List KWorker) (st st' : KillState),
      st.killed.Nodup → killLoop mmA mmI tmo dryRun ws st = .ok st' →
      st'.killed.Nodup ∧
        st'.numKilledActive + st'.numKilledIdle + (st.killed.length : Int) =
          st.numKilledActive + st.numKilledIdle + (st'.killed.length : Int)
  | [], st, st', hnd, h => by
    rw [killLoop] at h
    cases h
    exact ⟨hnd, by ring⟩
  | w :: ws, st, st', hnd, h => by
    rw [killLoop] at h
    by_cases hmem : w.pid ∈ st.killed
    · rw [if_pos hmem] at h
      exact killLoop_invariant mmA mmI tmo dryRun ws st st' hnd h
    · rw [if_neg hmem] at h
      have hnd2 : (st.killed ++ [w.pid]).Nodup := by
        refine List.nodup_append.mpr ⟨hnd, List.nodup_singleton _, ?_⟩
        intro a ha hb
        rw [List.mem_singleton] at hb
        subst hb
        exact hmem ha
      cases hdec : killDecision w mmA mmI tmo with
      | error e => rw [hdec] at h; cases h
      | ok b =>
        rw [hdec] at h
        cases b with
        | false => exact killLoop_invariant mmA mmI tmo dryRun ws st st' hnd h
        | true =>
          by_cases hdry : dryRun
          · rw [if_pos hdry] at h
            have ih := killLoop_invariant mmA mmI tmo dryRun ws
              (recordKill w st) st' (by simpa [recordKill] using hnd2) h
            refine ⟨ih.1, ?_⟩
            have := ih.2
            by_cases hact : isActiveW w <;>
              simp [recordKill, hact, List.length_append] at this <;> omega
          · rw [if_neg hdry] at h
            cases hp : w.process with
            | none => rw [hp] at h; cases h
            | some rss =>
              rw [hp] at h
              have ih := killLoop_invariant mmA mmI tmo dryRun ws
                (recordKill w { st with signals := st.signals ++ [w.pid] }) st'
                (by simpa [recordKill] using hnd2) h
              refine ⟨ih.1, ?_⟩
              have := ih.2
              by_cases hact : isActiveW w <;>
                simp [recordKill, hact, List.length_append] at this <;> omega

/-- Claim C2: whenever kill_workers returns a result, the returned pid list
has no duplicates and the increments of the active-killed and idle-killed
counters during the call sum to the length of that list. -/
theorem kill_workers_counts (registry : List KWorker) (mmA mmI tmo : Int)
    (dryRun : Bool) (a0 i0 : Int) (st' : KillState)
    (h : kill_workers registry mmA mmI tmo dryRun a0 i0 = .ok st') :
    st'.killed.Nodup ∧
      (st'.numKilledActive - a0) + (st'.numKilledIdle - i0) =
        (st'.killed.length : Int) := by
  have inv := killLoop_invariant mmA mmI tmo dryRun registry ⟨[], [], a0, i0⟩ st'
    (by simp) h
  refine ⟨inv.1, ?_⟩
  have := inv.2
  simp at this
  omega

/-- Claim C2 witness: a single fat active worker is killed, the returned
list is the one-element list of its pid and the counter increments sum to
one. -/
theorem kill_workers_counts_witness :
    (KillState.mk [3] [3] 1 0).killed.Nodup ∧
      ((KillState.mk [3] [3] 1 0).numKilledActive - 0) +
          ((KillState.mk [3] [3] 1 0).numKilledIdle - 0) =
        ((KillState.mk [3] [3] 1 0).killed.length : Int) :=
  kill_workers_counts [⟨3, .native (some "W") (some 10), some 999⟩] 100 0 0
    false 0 0 ⟨[3], [3], 1, 0⟩ rfl

theorem killLoop_dryRun (mmA mmI tmo : Int) :
    ∀ (ws : List KWorker) (k s s2 : List Int) (a i : Int) (st' : KillState),
      killLoop mmA mmI tmo false ws ⟨k, s, a, i⟩ = .ok st' →
      killLoop mmA mmI tmo true ws ⟨k, s2, a, i⟩ =
        .ok ⟨st'.killed, s2, st'.numKilledActive, st'.numKilledIdle⟩
  | [], k, s, s2, a, i, st', h => by
    rw [killLoop] at h
    cases h
    rw [killLoop]
  | w :: ws, k, s, s2, a, i, st', h => by
    rw [killLoop] at h
    rw [killLoop]
    by_cases hmem : w.pid ∈ (KillState.mk k s a i).killed
    · rw [if_pos hmem] at h
      rw [if_pos (show w.pid ∈ (KillState.mk k s2 a i).killed from hmem)]
      exact killLoop_dryRun mmA mmI tmo ws k s s2 a i st' h
    · rw [if_neg hmem] at h
      rw [if_neg (show w.pid ∉ (KillState.mk k s2 a i).killed from hmem)]
      cases hdec : killDecision w mmA mmI tmo with
      | error e => rw [hdec] at h; cases h
      | ok b =>
        rw [hdec] at h
        cases b with
        | false => exact killLoop_dryRun mmA mmI tmo ws k s s2 a i st' h
        | true =>
          rw [if_neg (by simp : ¬(false = true))] at h
          rw [if_pos rfl]
          cases hp : w.process with
          | none => rw [hp] at h; cases h
          | some rss =>
            rw [hp] at h
            exact killLoop_dryRun mmA mmI tmo ws (k ++ [w.pid]) (s ++ [w.pid])
              s2 _ _ st' h

/-- Claim C5 (amended): whenever the real run of kill_workers completes, the
dry run on the same inputs returns the same pid list and the same counter
values while issuing no termination signal.  The runs differ when the real
run aborts on a vanished process, which the counterexample exhibits. -/
theorem kill_workers_dry_run_agrees (registry : List KWorker)
    (mmA mmI tmo a0 i0 : Int) (st' : KillState)
    (h : kill_workers registry mmA mmI tmo false a0 i0 = .ok st') :
    kill_workers registry mmA mmI tmo true a0 i0 =
      .ok ⟨st'.killed, [], st'.numKilledActive, st'.numKilledIdle⟩ :=
  killLoop_dryRun mmA mmI tmo registry [] [] [] a0 i0 st' h

/-- Claim C5 witness: a hanging active worker with a live process is killed
in the real run; the dry run reports the same pid and counters with an
empty signal list. -/
theorem kill_workers_dry_run_agrees_witness :
    kill_workers [⟨7, .native (some "W") (some 400), some 123⟩] 0 0 300 true
        0 0 =
      .ok ⟨[7], [], 1, 0⟩ :=
  kill_workers_dry_run_agrees [⟨7, .native (some "W") (some 400), some 123⟩]
    0 0 300 0 0 ⟨[7], [7], 1, 0⟩ rfl

/-- Claim C5 counterexample: for a hanging active worker whose OS process is
already gone, the dry run returns its pid while the real run raises
AttributeError on process.kill() of the None handle, so the two runs do not
return the same pid list. -/
theorem kill_workers_dry_run_counterexample :
    kill_workers [⟨7, .native (some "W") (some 400), none⟩] 0 0 300 true 0 0 =
        .ok ⟨[7], [], 1, 0⟩ ∧
      kill_workers [⟨7, .native (some "W") (some 400), none⟩] 0 0 300 false
          0 0 =
        .error .attributeError :=
  ⟨rfl, rfl⟩

/-- Claim C1 (code-bug evaluation): a worker whose memory usage cannot be
resolved is not treated as below the threshold; with a nonzero applicable
memory ceiling the pass evaluates None greater-than int, which raises
TypeError under Python 3 and aborts kill_workers, in both real and dry
runs. -/
theorem gone_worker_memory_check_raises :
    kill_workers [⟨10, .native (some "_") (some 0), none⟩] 0 100 0 false 0 0 =
        .error .typeError ∧
      kill_workers [⟨10, .native (some "_") (some 0), none⟩] 0 100 0 true 0
          0 =
        .error .typeError :=
  ⟨rfl, rfl⟩

/-- Claim C8: the duration threshold is never applied to an idle or foreign
worker: the kill decision does not depend on the timeout value at all for
such workers, and with both memory ceilings disabled the decision is always
False, whatever the (nonnegative) timeout and the ss value. -/
theorem idle_and_foreign_duration_immune (w : KWorker) (mmA mmI tmo : Int)
    (htmo : 0 ≤ tmo) (hw : isIdleW w = true ∨ isForeignW w = true) :
    killDecision w mmA mmI tmo = killDecision w mmA mmI 0 ∧
      (mmA = 0 → mmI = 0 → killDecision w mmA mmI tmo = .ok false) := by
  have htail : ∀ t : Int, 0 ≤ t →
      (if t = 0 then Except.ok false
        else if !isActiveW w then Except.ok false
        else pyGT (getattrSS w) t) = Except.ok (false : Bool) := by
    intro t ht
    by_cases h0 : t = 0
    · rw [if_pos h0]
    · rw [if_neg h0]
      rcases hw with hw | hw
      · have : isActiveW w = false := by simp [isActiveW, hw]
        rw [this]
        rfl
      · have hact : isActiveW w = true := by
          cases w with
          | mk pid kind process =>
            cases kind with
            | native m ss => simp [isForeignW] at hw
            | foreign => simp [isActiveW, isIdleW]
        rw [hact]
        have hss : getattrSS w = some 0 := by
          cases w with
          | mk pid kind process =>
            cases kind with
            | native m ss => simp [isForeignW] at hw
            | foreign => rfl
        have hnl : ¬(t < 0) := not_lt.mpr ht
        simp [hss, pyGT, hnl]
  constructor
  · unfold killDecision
    cases hm : memCheck w mmA mmI with
    | error e => rfl
    | ok b =>
      cases b with
      | true => rfl
      | false => rw [htail tmo htmo, htail 0 le_rfl]
  · intro hA hI
    subst hA
    subst hI
    unfold killDecision
    have hm : memCheck w 0 0 = .ok false := by
      unfold memCheck
      by_cases hact : isActiveW w <;> simp [hact]
    rw [hm]
    exact htail tmo htmo

/-- Claim C8 witness: an idle worker with mode underscore and 400 seconds
since its last request is not killed under a duration limit of 300, and its
decision ignores the timeout entirely. -/
theorem idle_and_foreign_duration_immune_witness :
    killDecision ⟨10, .native (some "_") (some 400), some 1000⟩ 0 0 300 =
        killDecision ⟨10, .native (some "_") (some 400), some 1000⟩ 0 0 0 ∧
      killDecision ⟨10, .native (some "_") (some 400), some 1000⟩ 0 0 300 =
        .ok false :=
  ⟨(idle_and_foreign_duration_immune ⟨10, .native (some "_") (some 400),
      some 1000⟩ 0 0 300 (by decide) (Or.inl (by decide))).1,
   (idle_and_foreign_duration_immune ⟨10, .native (some "_") (some 400),
      some 1000⟩ 0 0 300 (by decide) (Or.inl (by decide))).2 rfl rfl⟩

/-- Claim C4 (amended): the registry is sorted ascending by pid, its pid
multiset is exactly the native pids together with the pids of the foreign
processes not shadowed by a native pid, and it has no duplicate pid
provided the native records and the scanned processes are themselves free
of duplicate pids (two native records of a threaded server can share one
OS pid, which the registry keeps, as the counterexample shows). -/
theorem killable_workers_sorted_partition (workersList : List KWorker)
    (procs : List ForeignProc) :
    (killable_workers workersList procs).Sorted kwLe ∧
      List.Perm ((killable_workers workersList procs).map KWorker.pid)
        (workersList.map KWorker.pid ++
          (procs.filter
            (fun p => !(workersList.map KWorker.pid).contains p.pid)).map
            ForeignProc.pid) ∧
      ((workersList.map KWorker.pid).Nodup →
        (procs.map ForeignProc.pid).Nodup →
        ((killable_workers workersList procs).map KWorker.pid).Nodup) := by
  have hforeign : (foreign_workers workersList procs).map KWorker.pid =
      (procs.filter
        (fun p => !(workersList.map KWorker.pid).contains p.pid)).map
        ForeignProc.pid := by
    simp [foreign_workers, List.map_map]
    intro a ha hb
    rfl
  have hperm : List.Perm ((killable_workers workersList procs).map KWorker.pid)
      (workersList.map KWorker.pid ++
        (procs.filter
          (fun p => !(workersList.map KWorker.pid).contains p.pid)).map
          ForeignProc.pid) := by
    have h1 := (List.perm_insertionSort kwLe
      (workersList ++ foreign_workers workersList procs)).map KWorker.pid
    rw [List.map_append, hforeign] at h1
    exact h1
  refine ⟨List.sorted_insertionSort kwLe _, hperm, ?_⟩
  intro h1 h2
  rw [hperm.nodup_iff]
  rw [List.nodup_append]
  refine ⟨h1, ?_, ?_⟩
  · exact List.Nodup.sublist ((List.filter_sublist procs).map ForeignProc.pid) h2
  · intro x hx hx2
    obtain ⟨p, hpmem, hpx⟩ := List.mem_map.mp hx2
    have hq := (List.mem_filter.mp hpmem).2
    rw [Bool.not_eq_eq_eq_not, Bool.not_true] at hq
    have : p.pid ∈ workersList.map KWorker.pid := hpx ▸ hx
    rw [← List.elem_iff] at this
    rw [List.contains] at hq
    rw [this] at hq
    cases hq

/-- Claim C4 witness: with native pids 1 and 4 and scanned pids 4 and 2,
the foreign process 4 is shadowed, the registry pids are 1, 2, 4 in
ascending order with no duplicates. -/
theorem killable_workers_sorted_partition_witness :
    (killable_workers
        [⟨1, .native (some "W") (some 0), some 5⟩,
         ⟨4, .native (some "_") (some 0), some 6⟩]
        [⟨4, 100⟩, ⟨2, 50⟩]).map KWorker.pid = [1, 2, 4] ∧
      ((killable_workers
          [⟨1, .native (some "W") (some 0), some 5⟩,
           ⟨4, .native (some "_") (some 0), some 6⟩]
          [⟨4, 100⟩, ⟨2, 50⟩]).map KWorker.pid).Nodup :=
  ⟨by decide,
   (killable_workers_sorted_partition
      [⟨1, .native (some "W") (some 0), some 5⟩,
       ⟨4, .native (some "_") (some 0), some 6⟩]
      [⟨4, 100⟩, ⟨2, 50⟩]).2.2 (by decide) (by decide)⟩

/-- Claim C4 counterexample: two native records sharing OS pid 5 (as a
threaded multiprocessing module reports them) both stay in the registry, so
a pid can appear twice. -/
theorem killable_workers_duplicate_native_pids :
    (killable_workers
        [⟨5, .native (some "W") (some 1), some 10⟩,
         ⟨5, .native (some "K") (some 2), some 20⟩] []).map KWorker.pid =
      [5, 5] ∧
    ¬ ((killable_workers
        [⟨5, .native (some "W") (some 1), some 10⟩,
         ⟨5, .native (some "K") (some 2), some 20⟩] []).map KWorker.pid).Nodup := by
  constructor
  · decide
  · decide

end ApacheManager
